import Mathlib

set_option maxRecDepth 100000

/-!
Verification development for the tamper-evident ledger of the ebarmm backend
(progress hash chain and global audit hash chain).

The definitions below are a shallow embedding of:
  - backend/app/core/security.py       (calculate_progress_hash, calculate_audit_hash,
                                        verify_progress_chain)
  - backend/app/services/audit_service.py (AuditService.log_action,
                                           AuditService.verify_chain_integrity)
  - backend/app/api/progress.py        (log_progress, verify_chain)
  - backend/app/models/__init__.py     (ProjectProgressLog, AuditLog columns)

Machine-level conventions: bytes are Nat values below 256, 32-bit words are
Nat values reduced mod 2^32; database tables are Lean lists kept in creation
order (the source orders all chain queries by created_at ascending).
-/

namespace Ebarmm

/-! ### SHA-256 (hashlib.sha256 over UTF-8 bytes, hex digest) -/

/-- Reduce to a 32-bit word, as all SHA-256 word arithmetic is mod 2^32. -/
def w32 (n : Nat) : Nat := n % 4294967296

/-- Right rotation of a 32-bit word by k bits. -/
def rotr (k x : Nat) : Nat := w32 ((x >>> k) ||| (x <<< (32 - k)))

def smallSigma0 (x : Nat) : Nat := w32 ((rotr 7 x) ^^^ (rotr 18 x) ^^^ (x >>> 3))

def smallSigma1 (x : Nat) : Nat := w32 ((rotr 17 x) ^^^ (rotr 19 x) ^^^ (x >>> 10))

def bigSigma0 (x : Nat) : Nat := w32 ((rotr 2 x) ^^^ (rotr 13 x) ^^^ (rotr 22 x))

def bigSigma1 (x : Nat) : Nat := w32 ((rotr 6 x) ^^^ (rotr 11 x) ^^^ (rotr 25 x))

def chFn (x y z : Nat) : Nat := w32 ((x &&& y) ^^^ ((x ^^^ 4294967295) &&& z))

def majFn (x y z : Nat) : Nat := w32 ((x &&& y) ^^^ (x &&& z) ^^^ (y &&& z))

/-- The 64 SHA-256 round constants (FIPS 180-4, in decimal). -/
def roundK : List Nat :=
  [1116352408, 1899447441, 3049323471, 3921009573, 961987163,
   1508970993, 2453635748, 2870763221, 3624381080, 310598401,
   607225278, 1426881987, 1925078388, 2162078206, 2614888103,
   3248222580, 3835390401, 4022224774, 264347078, 604807628,
   770255983, 1249150122, 1555081692, 1996064986, 2554220882,
   2821834349, 2952996808, 3210313671, 3336571891, 3584528711,
   113926993, 338241895, 666307205, 773529912, 1294757372,
   1396182291, 1695183700, 1986661051, 2177026350, 2456956037,
   2730485921, 2820302411, 3259730800, 3345764771, 3516065817,
   3600352804, 4094571909, 275423344, 430227734, 506948616,
   659060556, 883997877, 958139571, 1322822218, 1537002063,
   1747873779, 1955562222, 2024104815, 2227730452, 2361852424,
   2428436474, 2756734187, 3204031479, 3329325298]

/-- Initial SHA-256 state h0 .. h7 (in decimal). -/
def initH : List Nat :=
  [1779033703, 3144134277, 1013904242, 2773480762,
   1359893119, 2600822924, 528734635, 1541459225]

/-- Big-endian byte rendering of n, k bytes wide. -/
def beBytes (k n : Nat) : List Nat :=
  match k with
  | 0 => []
  | j + 1 => beBytes j (n / 256) ++ [n % 256]

/-- SHA-256 padding: append 0x80, zero bytes, then the 64-bit bit length. -/
def sha256pad (msg : List Nat) : List Nat :=
  let L := msg.length
  msg ++ 0x80 :: List.replicate ((119 - L % 64) % 64) 0 ++ beBytes 8 (8 * L)

/-- Split a byte list into 64-byte blocks; the fuel argument only bounds the
recursion depth and is set to the list length, which always suffices. -/
def chunksAux : Nat → List Nat → List (List Nat)
  | _, [] => []
  | 0, _ :: _ => []
  | fuel + 1, b :: rest => (b :: rest).take 64 :: chunksAux fuel ((b :: rest).drop 64)

/-- Split a byte list into 64-byte blocks. -/
def chunks64 (l : List Nat) : List (List Nat) := chunksAux l.length l

/-- Combine consecutive groups of 4 bytes into big-endian 32-bit words. -/
def bytesToWords : List Nat → List Nat
  | b0 :: b1 :: b2 :: b3 :: rest =>
      (b0 * 16777216 + b1 * 65536 + b2 * 256 + b3) :: bytesToWords rest
  | _ => []

/-- Next message-schedule word from the 16-word sliding window. -/
def wNext (win : List Nat) : Nat :=
  w32 (smallSigma1 (win.getD 14 0) + win.getD 9 0 +
       smallSigma0 (win.getD 1 0) + win.getD 0 0)

/-- Extend the message schedule by k further words. -/
def extendSched : Nat → List Nat → List Nat
  | 0, _ => []
  | k + 1, win =>
      let n := wNext win
      n :: extendSched k (win.drop 1 ++ [n])

/-- The 64-entry message schedule of one block. -/
def schedule (block16 : List Nat) : List Nat := block16 ++ extendSched 48 block16

/-- One SHA-256 round: state is the 8-word list [a,b,c,d,e,f,g,h]. -/
def roundStep (st : List Nat) (kw : Nat × Nat) : List Nat :=
  let a := st.getD 0 0
  let b := st.getD 1 0
  let c := st.getD 2 0
  let d := st.getD 3 0
  let e := st.getD 4 0
  let f := st.getD 5 0
  let g := st.getD 6 0
  let h := st.getD 7 0
  let t1 := w32 (h + bigSigma1 e + chFn e f g + kw.1 + kw.2)
  let t2 := w32 (bigSigma0 a + majFn a b c)
  [w32 (t1 + t2), a, b, c, w32 (d + t1), e, f, g]

/-- Compress one 64-byte block into the running 8-word state. -/
def compressBlock (h : List Nat) (block : List Nat) : List Nat :=
  let ws := schedule (bytesToWords block)
  let fin := (roundK.zip ws).foldl roundStep h
  (h.zip fin).map (fun p => w32 (p.1 + p.2))

/-- SHA-256 digest of a byte list, as 32 bytes. -/
def sha256 (msg : List Nat) : List Nat :=
  ((chunks64 (sha256pad msg)).foldl compressBlock initH).flatMap (beBytes 4)

/-- The sixteen lowercase hex digit characters. -/
def hexDigits : List Char := "0123456789abcdef".data

def hexDigit (n : Nat) : Char := hexDigits.getD n '0'

/-- Two lowercase hex characters for one byte. -/
def byteHex (b : Nat) : List Char := [hexDigit (b / 16), hexDigit (b % 16)]

/-- hashlib .hexdigest(): lowercase hex string of the digest. -/
def sha256hex (msg : List Nat) : String := String.mk ((sha256 msg).flatMap byteHex)

/-- UTF-8 byte expansion of one code point. -/
def utf8Char (n : Nat) : List Nat :=
  if n < 0x80 then [n]
  else if n < 0x800 then [0xc0 + n / 64, 0x80 + n % 64]
  else if n < 0x10000 then [0xe0 + n / 4096, 0x80 + (n / 64) % 64, 0x80 + n % 64]
  else [0xf0 + n / 262144, 0x80 + (n / 4096) % 64, 0x80 + (n / 64) % 64, 0x80 + n % 64]

/-- UTF-8 encoding of a string (str.encode in Python). -/
def utf8 (s : String) : List Nat := s.data.flatMap (fun c => utf8Char c.toNat)

/-! ### Canonical JSON (json.dumps with sort_keys=True, separators=(comma, colon)) -/

/-!
JSON values as passed to json.dumps, as a mutual family so that all
serialization functions are plain structural recursion.  A number carries
the exact decimal text Python renders for it (float repr or int repr),
since the hash input is that textual rendering.
-/
mutual

inductive Json where
  | null
  | bool (b : Bool)
  | num (txt : String)
  | str (s : String)
  | arr (xs : JsonList)
  | obj (kvs : JsonKVs)

inductive JsonList where
  | nil
  | cons (hd : Json) (tl : JsonList)

inductive JsonKVs where
  | nil
  | cons (key : String) (val : Json) (tl : JsonKVs)

end

def hex4 (n : Nat) : List Char :=
  [hexDigit (n / 4096 % 16), hexDigit (n / 256 % 16), hexDigit (n / 16 % 16), hexDigit (n % 16)]

/-- json.dumps character escaping with ensure_ascii (the default): short
escapes for the two-character sequences, \uXXXX for other control or
non-ASCII characters, surrogate pairs beyond the BMP. -/
def escapeChar (c : Char) : List Char :=
  if c = '"' then ['\\', '"']
  else if c = '\\' then ['\\', '\\']
  else if c = '\n' then ['\\', 'n']
  else if c = '\r' then ['\\', 'r']
  else if c = '\t' then ['\\', 't']
  else if c.toNat = 8 then ['\\', 'b']
  else if c.toNat = 12 then ['\\', 'f']
  else if c.toNat < 32 ∨ c.toNat ≥ 127 then
    if c.toNat < 65536 then '\\' :: 'u' :: hex4 c.toNat
    else ('\\' :: 'u' :: hex4 (55296 + (c.toNat - 65536) / 1024)) ++
         ('\\' :: 'u' :: hex4 (56320 + (c.toNat - 65536) % 1024))
  else [c]

/-- A JSON string literal: quotes around the escaped character sequence. -/
def jsonQuote (s : String) : String :=
  "\"" ++ String.mk (s.data.flatMap escapeChar) ++ "\""

/-- Lexicographic comparison of character sequences by code point, which is
how Python compares str values when sorting keys. -/
def strLt : List Char → List Char → Bool
  | [], [] => false
  | [], _ :: _ => true
  | _ :: _, [] => false
  | c1 :: t1, c2 :: t2 =>
      if c1.toNat < c2.toNat then true
      else if c2.toNat < c1.toNat then false
      else strLt t1 t2

def keyLe (a b : String) : Bool := !(strLt b.data a.data)

/-- Insert one key-value pair into a key-sorted pair list. -/
def insertKV (k : String) (v : Json) : JsonKVs → JsonKVs
  | .nil => .cons k v .nil
  | .cons k2 v2 rest =>
      if keyLe k k2 then .cons k v (.cons k2 v2 rest) else .cons k2 v2 (insertKV k v rest)

/-- Sort the pairs of an object by key (sort_keys=True). -/
def sortKVs : JsonKVs → JsonKVs
  | .nil => .nil
  | .cons k v rest => insertKV k v (sortKVs rest)

mutual

/-- Recursively sort every object of a JSON value by key. -/
def sortJson : Json → Json
  | .null => .null
  | .bool b => .bool b
  | .num txt => .num txt
  | .str s => .str s
  | .arr xs => .arr (sortJsonList xs)
  | .obj kvs => .obj (sortJsonKVs kvs)
  termination_by structural j => j

def sortJsonList : JsonList → JsonList
  | .nil => .nil
  | .cons x tl => .cons (sortJson x) (sortJsonList tl)
  termination_by structural l => l

def sortJsonKVs : JsonKVs → JsonKVs
  | .nil => .nil
  | .cons k v tl => insertKV k (sortJson v) (sortJsonKVs tl)
  termination_by structural l => l

end

mutual

/-- Serialize a (key-sorted) JSON value with separators=(comma, colon),
i.e. no insignificant whitespace. -/
def dumpsSorted : Json → String
  | .null => "null"
  | .bool b => cond b "true" "false"
  | .num txt => txt
  | .str s => jsonQuote s
  | .arr xs => "[" ++ dumpsList xs ++ "]"
  | .obj kvs => "\x7b" ++ dumpsKVs kvs ++ "\x7d"
  termination_by structural j => j

/-- Comma-separated serializations of array elements. -/
def dumpsList : JsonList → String
  | .nil => ""
  | .cons x .nil => dumpsSorted x
  | .cons x (.cons y tl) => dumpsSorted x ++ "," ++ dumpsList (.cons y tl)
  termination_by structural l => l

/-- Comma-separated key:value serializations of object entries. -/
def dumpsKVs : JsonKVs → String
  | .nil => ""
  | .cons k v .nil => jsonQuote k ++ ":" ++ dumpsSorted v
  | .cons k v (.cons k2 v2 tl) =>
      jsonQuote k ++ ":" ++ dumpsSorted v ++ "," ++ dumpsKVs (.cons k2 v2 tl)
  termination_by structural l => l

end

/-- json.dumps(v, sort_keys=True, separators=(comma, colon)): sort every
object by key, then serialize without insignificant whitespace. -/
def dumps (j : Json) : String := dumpsSorted (sortJson j)

/-- Decimal text repr(float(d)) of a non-negative Numeric(5,2) database value
given in hundredths: the exact decimal with trailing fractional zeros
stripped, at least one fractional digit (10.00 renders 10.0, 10.50 renders
10.5, 10.55 renders 10.55).  This is what json.dumps prints for the float,
because CPython float repr is the shortest decimal that round-trips. -/
def pyFloatRepr (hundredths : Nat) : String :=
  let ip := hundredths / 100
  let fp := hundredths % 100
  if fp = 0 then toString ip ++ ".0"
  else if fp % 10 = 0 then toString ip ++ "." ++ toString (fp / 10)
  else toString ip ++ "." ++ (if fp < 10 then "0" ++ toString fp else toString fp)

/-- Build an object from a Lean list of pairs (a Python dict literal). -/
def JsonKVs.ofList : List (String × Json) → JsonKVs
  | [] => .nil
  | (k, v) :: tl => .cons k v (JsonKVs.ofList tl)

/-- A Python dict literal as a JSON value. -/
def Json.mkObj (l : List (String × Json)) : Json := .obj (JsonKVs.ofList l)

/-! ### The two canonical hashers (core/security.py) -/

/-- core/security.py calculate_progress_hash: canonical JSON of the five
fields (keys sorted, no whitespace), SHA-256, hex.  reported_percent is the
stored Numeric(5,2) value in hundredths; prev_hash None is encoded as the
empty string by the `or` coalescing in the source. -/
def calculate_progress_hash (project_id : String) (reported_percent : Nat)
    (report_date : String) (reported_by : String) ( prev_hash : Option String) : String :=
  let payload := Json.mkObj
    [("project_id", Json.str project_id),
     ("reported_percent", Json.num (pyFloatRepr reported_percent)),
     ("report_date", Json.str report_date),
     ("reported_by", Json.str reported_by),
     ("prev_hash", Json.str (prev_hash.getD ""))]
  sha256hex (utf8 (dumps payload))

/-- core/security.py calculate_audit_hash: canonical JSON of the seven
fields (payload is a nested JSON object, canonicalized recursively),
SHA-256, hex. -/
def calculate_audit_hash (actor_id : String) (action : String)
    (entity_type : String) (entity_id : String) (payload : Json)
    (created_at : String) ( prev_hash : Option String) : String :=
  let hash_payload := Json.mkObj
    [("actor_id", Json.str actor_id),
     ("action", Json.str action),
     ("entity_type", Json.str entity_type),
     ("entity_id", Json.str entity_id),
     ("payload", payload),
     ("created_at", Json.str created_at),
     ("prev_hash", Json.str (prev_hash.getD ""))]
  sha256hex (utf8 (dumps hash_payload))

/-! ### Data model (models/__init__.py) -/

/-- One row of project_progress_logs (ProjectProgressLog).  reported_percent
is the stored Numeric(5,2) value in hundredths; prev_hash is a nullable Text
column, record_hash is Text NOT NULL.  Tables are modelled as Lean lists in
created_at order, the order every chain query of the source uses. -/
structure ProgressLog where
  progress_id : String
  project_id : String
  reported_percent : Nat
  report_date : String
  remarks : Option String
  reported_by : String
  created_at : String
  prev_hash : Option String
  record_hash : String
deriving DecidableEq

/-- One row of audit_logs (AuditLog).  Both hash columns are nullable Text;
the rows inserted directly by api/progress.py log_progress leave them NULL. -/
structure AuditLog where
  audit_id : String
  actor_id : Option String
  action : String
  entity_type : String
  entity_id : Option String
  payload : Option Json
  ip_address : Option String
  user_agent : Option String
  created_at : Option String
  prev_hash : Option String
  record_hash : Option String

/-- The persistent store: the two ledger tables, each in creation order. -/
structure DB where
  progress_logs : List ProgressLog
  audit_logs : List AuditLog

/-! ### Chain verifier for progress records (core/security.py, api/progress.py) -/

/-- One entry of the broken_links list of verify_progress_chain.  The source
appends one dict shape when the recomputed hash differs from the stored one
and another (with an error key reading prev_hash mismatch) when the stored
prev_hash differs from the previous stored record_hash; the two shapes are
the two constructors. -/
inductive ProgressFinding where
  | hashMismatch (progress_id : String) (expected_hash : String)
      (actual_hash : String) (report_date : String)
  | prevHashMismatch (progress_id : String) (expected_prev_hash : String)
      (actual_prev_hash : Option String)
deriving DecidableEq

def ProgressFinding.progressId : ProgressFinding → String
  | .hashMismatch pid _ _ _ => pid
  | .prevHashMismatch pid _ _ => pid

def ProgressFinding.isLinkFinding : ProgressFinding → Bool
  | .hashMismatch _ _ _ _ => false
  | .prevHashMismatch _ _ _ => true

/-- The loop body of core/security.py verify_progress_chain: walk the logs
with the running prev_hash variable (None before the first record), recompute
each expected hash from the stored fields and the running value, emit the
hash finding and then the link finding, and advance the running value to the
stored record_hash. -/
def verifyAux ( prev_hash : Option String) : List ProgressLog → List ProgressFinding
  | [] => []
  | log :: rest =>
      let expected_hash := calculate_progress_hash log.project_id
        log.reported_percent log.report_date log.reported_by prev_hash
      (if expected_hash ≠ log.record_hash then
        [.hashMismatch log.progress_id expected_hash log.record_hash log.report_date]
      else []) ++
      (match prev_hash with
       | some p => if log.prev_hash ≠ some p then
            [.prevHashMismatch log.progress_id p log.prev_hash]
          else []
       | none => []) ++
      verifyAux (some log.record_hash) rest

/-- core/security.py verify_progress_chain: returns (is_valid, broken_links)
with is_valid true exactly when broken_links is empty. -/
def verify_progress_chain (logs : List ProgressLog) : Bool × List ProgressFinding :=
  let broken_links := verifyAux none logs
  (broken_links.isEmpty, broken_links)

/-- Response model of GET projects/ID/progress/verify. -/
structure ProgressVerificationResponse where
  project_id : String
  total_logs : Nat
  chain_valid : Bool
  broken_links : List ProgressFinding
deriving DecidableEq

/-- The records of one chain scope, in creation order: the source filters the
table by project_id and orders by created_at ascending. -/
def scopeLogs (project_id : String) (db : DB) : List ProgressLog :=
  db.progress_logs.filter (fun l => l.project_id == project_id)

/-- api/progress.py verify_chain: fetch the whole scope, short-circuit the
empty chain as valid, otherwise run verify_progress_chain.  (The
project-existence check is an authorization concern outside the ledger; the
scope is assumed to name an existing project.) -/
def verify_chain (project_id : String) (db : DB) : ProgressVerificationResponse :=
  let logs := scopeLogs project_id db
  if logs.isEmpty then
    { project_id := project_id, total_logs := 0, chain_valid := true, broken_links := [] }
  else
    let r := verify_progress_chain logs
    { project_id := project_id, total_logs := logs.length,
      chain_valid := r.1, broken_links := r.2 }

/-! ### Append coordinator for progress records (api/progress.py log_progress) -/

/-- The request body (schemas ProgressLogCreate); reported_percent in
hundredths of a percent, report_date an ISO date string. -/
structure ProgressLogCreate where
  reported_percent : Nat
  report_date : String
  remarks : Option String

/-- The error raised before anything is written: the duplicate-date check
maps to the HTTP 400 DuplicateRecordError response.  (Project lookup and
RBAC run before the ledger logic and are out of the ledger's scope.) -/
inductive AppendError where
  | duplicateRecord (report_date : String)
deriving DecidableEq

/-- The two rows log_progress stages with db.add before the single commit. -/
structure PendingAppend where
  new_log : ProgressLog
  audit_entry : AuditLog

/-- The read-and-compute phase of log_progress, a pure function of the
database snapshot it runs against: the duplicate-date check, the
latest-record lookup (order_by created_at desc, first), prev_hash selection,
hash computation and construction of the two rows to insert.  The source
takes no lock and opens no serializable transaction around this phase, so
under concurrency two requests can both run it against the same snapshot.
progress_id / audit_id are the uuid4 values drawn by the handler and now /
audit_now the two datetime.utcnow() calls. -/
def log_progress_read (db : DB) (project_id : String) (progress : ProgressLogCreate)
    (user_id : String) (progress_id : String) (now : String)
    (audit_id : String) (audit_now : String) : Except AppendError PendingAppend :=
  if db.progress_logs.any
      (fun l => l.project_id == project_id && l.report_date == progress.report_date) then
    .error (.duplicateRecord progress.report_date)
  else
    let latest_log := (scopeLogs project_id db).getLast?
    let prev_hash := latest_log.map (fun l => l.record_hash)
    let record_hash := calculate_progress_hash project_id progress.reported_percent
      progress.report_date user_id prev_hash
    let new_log : ProgressLog :=
      { progress_id := progress_id, project_id := project_id,
        reported_percent := progress.reported_percent,
        report_date := progress.report_date, remarks := progress.remarks,
        reported_by := user_id, created_at := now,
        prev_hash := prev_hash, record_hash := record_hash }
    let audit_entry : AuditLog :=
      { audit_id := audit_id, actor_id := some user_id, action := "LOG_PROGRESS",
        entity_type := "progress_log", entity_id := some progress_id,
        payload := some (Json.mkObj
          [("project_id", Json.str project_id),
           ("reported_percent", Json.num (pyFloatRepr progress.reported_percent)),
           ("report_date", Json.str progress.report_date),
           ("prev_hash", match prev_hash with | none => Json.null | some h => Json.str h),
           ("record_hash", Json.str record_hash)]),
        ip_address := none, user_agent := none, created_at := some audit_now,
        prev_hash := none, record_hash := none }
    .ok { new_log := new_log, audit_entry := audit_entry }

/-- The commit phase of log_progress: one atomic transaction inserting the
staged progress row and audit row, touching nothing else. -/
def log_progress_commit (db : DB) (pending : PendingAppend) : DB :=
  { progress_logs := db.progress_logs ++ [pending.new_log],
    audit_logs := db.audit_logs ++ [pending.audit_entry] }

/-- api/progress.py log_progress run to completion against one database
state: read-and-compute, then commit; on the duplicate-date error nothing
has been staged and the transaction never commits. -/
def log_progress (db : DB) (project_id : String) (progress : ProgressLogCreate)
    (user_id : String) (progress_id : String) (now : String)
    (audit_id : String) (audit_now : String) : Except AppendError (DB × ProgressLog) :=
  match log_progress_read db project_id progress user_id progress_id now audit_id audit_now with
  | .error e => .error e
  | .ok pending => .ok (log_progress_commit db pending, pending.new_log)

/-- The database state after a log_progress request: unchanged when the
request was rejected. -/
def log_progress_state (db : DB) (project_id : String) (progress : ProgressLogCreate)
    (user_id : String) (progress_id : String) (now : String)
    (audit_id : String) (audit_now : String) : DB :=
  match log_progress db project_id progress user_id progress_id now audit_id audit_now with
  | .error _ => db
  | .ok (db2, _) => db2

/-! ### Append coordinator for audit records (services/audit_service.py log_action) -/

/-- AuditService.log_action: read the latest audit row (the audit chain is
one global scope), chain to its record_hash when that is non-NULL, hash with
created_at equal to the datetime.utcnow() string drawn in the function, and
insert one row.  The inserted row itself gets its created_at from the column
default at flush time (inserted_at here), which the function does not pass. -/
def log_action (audit_logs : List AuditLog) (actor_id : String) (action : String)
    (entity_type : String) (entity_id : String) (payload : Option Json)
    (ip_address : Option String) (user_agent : Option String)
    (audit_id : String) (now : String) (inserted_at : String) :
    List AuditLog × AuditLog :=
  let prev_log := audit_logs.getLast?
  let prev_hash := prev_log.bind (fun l => l.record_hash)
  let record_hash := calculate_audit_hash actor_id action entity_type entity_id
    (payload.getD (Json.mkObj [])) now prev_hash
  let audit_log : AuditLog :=
    { audit_id := audit_id, actor_id := some actor_id, action := action,
      entity_type := entity_type, entity_id := some entity_id,
      payload := some (payload.getD (Json.mkObj [])),
      ip_address := ip_address, user_agent := user_agent,
      created_at := some inserted_at,
      prev_hash := prev_hash, record_hash := some record_hash }
  (audit_logs ++ [audit_log], audit_log)

/-! ### Chain verifier for audit records (services/audit_service.py) -/

/-- One entry of the broken_links list of verify_chain_integrity; the two
dict shapes of the source are the two constructors. -/
inductive AuditFinding where
  | hashMismatch (audit_id : String) (expected_hash : String)
      (actual_hash : Option String) (created_at : Option String)
  | prevHashMismatch (audit_id : String) (expected_prev_hash : String)
      (actual_prev_hash : Option String)
deriving DecidableEq

/-- Python `log.payload or {}`: NULL coalesces to the empty dict (the column
only ever holds JSON objects, for which `or` is exactly this coalescing). -/
def jsonOrEmpty : Option Json → Json
  | none => Json.mkObj []
  | some j => j

/-- The loop of verify_chain_integrity: like the progress verifier, but every
nullable column is coalesced for hashing, and the running prev_hash advances
to the stored record_hash even when that is NULL (in which case the next
link check is skipped again). -/
def auditVerifyAux ( prev_hash : Option String) : List AuditLog → List AuditFinding
  | [] => []
  | log :: rest =>
      let expected_hash := calculate_audit_hash (log.actor_id.getD "") log.action
        log.entity_type (log.entity_id.getD "") (jsonOrEmpty log.payload)
        (log.created_at.getD "") prev_hash
      (if log.record_hash ≠ some expected_hash then
        [.hashMismatch log.audit_id expected_hash log.record_hash log.created_at]
      else []) ++
      (match prev_hash with
       | some p => if log.prev_hash ≠ some p then
            [.prevHashMismatch log.audit_id p log.prev_hash]
          else []
       | none => []) ++
      auditVerifyAux log.record_hash rest

/-- Result dict of verify_chain_integrity. -/
structure AuditVerificationResult where
  is_valid : Bool
  logs_checked : Nat
  broken_links : List AuditFinding

/-- AuditService.verify_chain_integrity: fetch the audit rows in creation
order, but at most limit of them (the query has .limit(limit), default
1000), then walk the fetched prefix.  logs_checked reports how many rows
were fetched. -/
def verify_chain_integrity (audit_logs : List AuditLog) (limit : Nat) :
    AuditVerificationResult :=
  let logs := audit_logs.take limit
  let broken_links := auditVerifyAux none logs
  { is_valid := broken_links.isEmpty, logs_checked := logs.length,
    broken_links := broken_links }

/-! ### Chain validity: what a sequence of successful Appends leaves behind -/

/-- A progress-record list is a valid chain continuation of prev: the first
record links to prev, each record_hash is the canonical hash of that
record's own stored fields with its link, and each later record links to the
stored record_hash before it.  A scope built by N successful log_progress
calls satisfies chainedFrom none (the first call finds no latest record, so
its stored prev_hash is NULL). -/
def chainedFrom ( prev : Option String) : List ProgressLog → Prop
  | [] => True
  | log :: rest =>
      log.prev_hash = prev ∧
      log.record_hash = calculate_progress_hash log.project_id log.reported_percent
        log.report_date log.reported_by prev ∧
      chainedFrom (some log.record_hash) rest

/-- The running prev_hash value after walking a record list, i.e. the stored
record_hash of the last record, or the starting value for an empty list. -/
def chainEnd ( prev : Option String) : List ProgressLog → Option String
  | [] => prev
  | log :: rest => chainEnd (some log.record_hash) rest

/-- The audit-chain analogue of chainedFrom, phrased over the columns the
audit verifier recomputes from (all nullable columns coalesced the way
verify_chain_integrity coalesces them). -/
def auditChainedFrom ( prev : Option String) : List AuditLog → Prop
  | [] => True
  | log :: rest =>
      log.prev_hash = prev ∧
      log.record_hash = some (calculate_audit_hash (log.actor_id.getD "") log.action
        log.entity_type (log.entity_id.getD "") (jsonOrEmpty log.payload)
        (log.created_at.getD "") prev) ∧
      auditChainedFrom log.record_hash rest

/-- A 64-character string of lowercase hex digits. -/
def isHex64 (s : String) : Bool :=
  s.data.length == 64 && s.data.all (fun c => hexDigits.contains c)

/-! ### Concrete fixtures for witnesses and counterexamples -/

/-- The spec's concrete scenario: first report of project P. -/
def wLog1 : ProgressLog :=
  { progress_id := "pr1", project_id := "P", reported_percent := 1000,
    report_date := "2024-01-01", remarks := none, reported_by := "U1",
    created_at := "2024-01-01T10:00:00",
    prev_hash := none,
    record_hash := calculate_progress_hash "P" 1000 "2024-01-01" "U1" none }

/-- The spec's concrete scenario: second report of project P, linked to the
first. -/
def wLog2 : ProgressLog :=
  { progress_id := "pr2", project_id := "P", reported_percent := 3500,
    report_date := "2024-01-15", remarks := none, reported_by := "U1",
    created_at := "2024-01-15T10:00:00",
    prev_hash := some wLog1.record_hash,
    record_hash := calculate_progress_hash "P" 3500 "2024-01-15" "U1"
      (some wLog1.record_hash) }

/-- wLog1 with its payload mutated out-of-band (reported_percent changed
from 10.00 to 20.00) while the stored prev_hash and record_hash columns are
left untouched. -/
def wLog1mut : ProgressLog := { wLog1 with reported_percent := 2000 }

/-- A store holding the valid two-record chain of project P. -/
def wDB : DB := { progress_logs := [wLog1, wLog2], audit_logs := [] }

/-- The same store after the out-of-band mutation of the first record. -/
def wDBmut : DB := { progress_logs := [wLog1mut, wLog2], audit_logs := [] }

/-- An empty store. -/
def emptyDB : DB := { progress_logs := [], audit_logs := [] }

/-- A valid single-record global audit chain. -/
def wAudit1 : AuditLog :=
  { audit_id := "a1", actor_id := some "U1", action := "CREATE_PROJECT",
    entity_type := "project", entity_id := some "P",
    payload := some (Json.mkObj []), ip_address := none, user_agent := none,
    created_at := some "2024-01-01T10:00:00",
    prev_hash := none,
    record_hash := some (calculate_audit_hash "U1" "CREATE_PROJECT" "project" "P"
      (Json.mkObj []) "2024-01-01T10:00:00" none) }

/-- An arbitrary audit row (its hash columns do not matter for counting). -/
def cxAuditLog : AuditLog :=
  { audit_id := "a0", actor_id := none, action := "X", entity_type := "t",
    entity_id := none, payload := none, ip_address := none, user_agent := none,
    created_at := none, prev_hash := none, record_hash := none }

/-- A record whose first-position prev_hash is a forged non-empty value. -/
def wForged : ProgressLog :=
  { progress_id := "pr9", project_id := "P", reported_percent := 1000,
    report_date := "2024-02-01", remarks := none, reported_by := "U1",
    created_at := "2024-02-01T10:00:00",
    prev_hash := some "deadbeef",
    record_hash := calculate_progress_hash "P" 1000 "2024-02-01" "U1" none }

/-- The audit-trail row log_progress stages alongside wLog1 when called on
the empty store (note both hash columns NULL: the handler builds this row
without them). -/
def wAuditEntry : AuditLog :=
  { audit_id := "a1", actor_id := some "U1", action := "LOG_PROGRESS",
    entity_type := "progress_log", entity_id := some "pr1",
    payload := some (Json.mkObj
      [("project_id", Json.str "P"),
       ("reported_percent", Json.num (pyFloatRepr 1000)),
       ("report_date", Json.str "2024-01-01"),
       ("prev_hash", Json.null),
       ("record_hash", Json.str wLog1.record_hash)]),
    ip_address := none, user_agent := none, created_at := some "t2",
    prev_hash := none, record_hash := none }

/-- Store for the concurrency scenario: project P already has one record. -/
def raceDB : DB :=
  { progress_logs :=
      [{ progress_id := "pr0", project_id := "P", reported_percent := 1000,
         report_date := "2024-01-01", remarks := none, reported_by := "U1",
         created_at := "t0", prev_hash := none, record_hash := "h0" }],
    audit_logs := [] }

/-- The interleaved execution the source permits because no lock or
serializable transaction spans the latest-record read and the insert of
log_progress: request A runs its read phase against raceDB, request B runs
its read phase against the same snapshot (before A commits), then A commits
and B commits.  Both read phases see the same latest record h0. -/
def raceFinal : DB :=
  match log_progress_read raceDB "P"
          { reported_percent := 2000, report_date := "2024-01-02", remarks := none }
          "U1" "prA" "tA" "aA" "tA2",
        log_progress_read raceDB "P"
          { reported_percent := 3000, report_date := "2024-01-03", remarks := none }
          "U2" "prB" "tB" "aB" "tB2" with
  | .ok pa, .ok pb => log_progress_commit (log_progress_commit raceDB pa) pb
  | _, _ => raceDB

/-- A valid audit chain of n records continuing from prev: every record is
hashed by the canonical hasher over its own stored fields and linked to the
stored record_hash before it, exactly what n successful audit Appends leave
behind. -/
def auditChainAux : Nat → Option String → List AuditLog
  | 0, _ => []
  | n + 1, prev =>
      let rh := calculate_audit_hash "U1" "UPDATE_PROJECT" "project" "P"
        (Json.mkObj []) "2024-01-01T10:00:00" prev
      { audit_id := "a", actor_id := some "U1", action := "UPDATE_PROJECT",
        entity_type := "project", entity_id := some "P",
        payload := some (Json.mkObj []), ip_address := none, user_agent := none,
        created_at := some "2024-01-01T10:00:00",
        prev_hash := prev, record_hash := some rh } :: auditChainAux n (some rh)

/-! ### Validation of the SHA-256 embedding against standard test vectors -/

theorem sha256hex_test_vector_abc : sha256hex (utf8 "abc") =
    "ba7816bf8f01cfea414140de5dae2223b00361a396177a9cb410ff61f20015ad" := by decide

theorem sha256hex_test_vector_empty : sha256hex (utf8 "") =
    "e3b0c44298fc1c149afbf4c8996fb92427ae41e4649b934ca495991b7852b855" := by decide

/-! ### Helper lemmas about the verifiers -/

theorem verifyAux_append (ys : List ProgressLog) :
    ∀ (xs : List ProgressLog) ( prev : Option String), chainedFrom prev xs →
      verifyAux prev (xs ++ ys) = verifyAux (chainEnd prev xs) ys := by
  intro xs
  induction xs with
  | nil => intro prev h; rfl
  | cons log rest ih =>
      intro prev h
      obtain ⟨h1, h2, h3⟩ := h
      have hx : verifyAux prev ((log :: rest) ++ ys) =
          verifyAux (some log.record_hash) (rest ++ ys) := by
        cases prev with
        | none => simp [verifyAux, ← h2]
        | some p => simp [verifyAux, ← h2, h1]
      rw [hx, ih (some log.record_hash) h3]
      rfl

theorem chained_no_findings (xs : List ProgressLog) ( prev : Option String)
    (h : chainedFrom prev xs) : verifyAux prev xs = [] := by
  have hx := verifyAux_append [] xs prev h
  simpa using hx

theorem audit_chained_no_findings (xs : List AuditLog) :
    ∀ ( prev : Option String), auditChainedFrom prev xs → auditVerifyAux prev xs = [] := by
  induction xs with
  | nil => intro prev _; rfl
  | cons log rest ih =>
      intro prev h
      obtain ⟨h1, h2, h3⟩ := h
      rw [h2] at h3
      cases prev with
      | none => simp [auditVerifyAux, h2, ih _ h3]
      | some p => simp [auditVerifyAux, h2, h1, ih _ h3]

theorem auditChainedFrom_take :
    ∀ (xs : List AuditLog) (n : Nat) ( prev : Option String),
      auditChainedFrom prev xs → auditChainedFrom prev (xs.take n) := by
  intro xs
  induction xs with
  | nil =>
      intro n prev h
      simpa [List.take_nil] using h
  | cons log rest ih =>
      intro n prev h
      obtain ⟨h1, h2, h3⟩ := h
      cases n with
      | zero => trivial
      | succ m => exact ⟨h1, h2, ih m _ h3⟩

theorem auditChainAux_length (n : Nat) : ∀ prev, (auditChainAux n prev).length = n := by
  induction n with
  | zero => intro prev; rfl
  | succ m ih => intro prev; simp [auditChainAux, ih]

theorem auditChainAux_chained (n : Nat) :
    ∀ prev, auditChainedFrom prev (auditChainAux n prev) := by
  induction n with
  | zero => intro prev; trivial
  | succ m ih => intro prev; exact ⟨rfl, rfl, ih _⟩

theorem verifyAux_progressId_mem (logs : List ProgressLog) :
    ∀ ( prev : Option String) (f : ProgressFinding), f ∈ verifyAux prev logs →
      f.progressId ∈ logs.map (fun l => l.progress_id) := by
  induction logs with
  | nil => intro prev f hf; simp [verifyAux] at hf
  | cons log rest ih =>
      intro prev f hf
      simp only [verifyAux, List.mem_append] at hf
      rcases hf with (hf | hf) | hf
      · split at hf
        · simp at hf
          subst hf
          simp [ProgressFinding.progressId]
        · simp at hf
      · cases prev with
        | none => simp at hf
        | some p =>
            simp at hf
            obtain ⟨-, hf⟩ := hf
            subst hf
            simp [ProgressFinding.progressId]
      · have := ih (some log.record_hash) f hf
        simp only [List.map_cons, List.mem_cons]
        exact Or.inr (by simpa using this)

/-! ### The hex digest is always 64 lowercase hex characters -/

theorem beBytes_length (k : Nat) : ∀ n, (beBytes k n).length = k := by
  induction k with
  | zero => intro n; rfl
  | succ j ih => intro n; simp [beBytes, ih]

theorem extendSched_length (k : Nat) : ∀ win, (extendSched k win).length = k := by
  induction k with
  | zero => intro win; rfl
  | succ j ih => intro win; simp [extendSched, ih]

theorem foldl_roundStep_length (l : List (Nat × Nat)) :
    ∀ st, l ≠ [] → (l.foldl roundStep st).length = 8 := by
  induction l with
  | nil => simp
  | cons x xs ih =>
      intro st _
      cases xs with
      | nil => rfl
      | cons y ys => exact ih (roundStep st x) (by simp)

theorem compressBlock_length (st block : List Nat) (h : st.length = 8) :
    (compressBlock st block).length = 8 := by
  unfold compressBlock
  have hws : (schedule (bytesToWords block)).length = (bytesToWords block).length + 48 := by
    simp [schedule, extendSched_length]
  have hzip : (roundK.zip (schedule (bytesToWords block))).length =
      min roundK.length (schedule (bytesToWords block)).length := List.length_zip _ _
  have hK : roundK.length = 64 := rfl
  have hne : roundK.zip (schedule (bytesToWords block)) ≠ [] := by
    intro hnil
    rw [hnil] at hzip
    simp [hK, hws] at hzip
    omega
  have hfin := foldl_roundStep_length (roundK.zip (schedule (bytesToWords block))) st hne
  simp [List.length_zip, h, hfin]

theorem sha_state_length (blocks : List (List Nat)) :
    ∀ st, st.length = 8 → (blocks.foldl compressBlock st).length = 8 := by
  induction blocks with
  | nil => intro st h; simpa using h
  | cons b bs ih =>
      intro st h
      exact ih (compressBlock st b) (compressBlock_length st b h)

theorem flatMap_length_const {α β : Type} (f : α → List β) (k : Nat)
    (hf : ∀ a, (f a).length = k) : ∀ l : List α, (l.flatMap f).length = k * l.length := by
  intro l
  induction l with
  | nil => simp
  | cons a tl ih =>
      simp [List.flatMap_cons, hf, ih, Nat.mul_succ]
      omega

theorem sha256_length (msg : List Nat) : (sha256 msg).length = 32 := by
  unfold sha256
  rw [flatMap_length_const (beBytes 4) 4 (beBytes_length 4) _,
    sha_state_length _ initH rfl]

theorem mem_hexDigits (n : Nat) : hexDigit n ∈ hexDigits := by
  rcases Nat.lt_or_ge n 16 with h | h
  · interval_cases n <;> decide
  · have hd : hexDigit n = '0' := by
      unfold hexDigit
      exact List.getD_eq_default _ _ (by simpa [hexDigits] using h)
    rw [hd]
    decide

theorem isHex64_sha256hex (msg : List Nat) : isHex64 (sha256hex msg) = true := by
  unfold isHex64 sha256hex
  have hlen : ((sha256 msg).flatMap byteHex).length = 64 := by
    rw [flatMap_length_const byteHex 2 (fun b => rfl) _, sha256_length]
  simp only [Bool.and_eq_true, beq_iff_eq, List.all_eq_true]
  refine ⟨hlen, ?_⟩
  intro c hc
  have hmem : c ∈ hexDigits := by
    rw [List.mem_flatMap] at hc
    obtain ⟨b, _, hcb⟩ := hc
    simp only [byteHex, List.mem_cons, List.not_mem_nil, or_false] at hcb
    rcases hcb with h | h <;> (subst h; exact mem_hexDigits _)
  simpa using hmem

/-! ### Claim theorems -/

/-- Claim C6: for the first record of project P with report_date 2024-01-01,
reported_percent 10.0, reported_by U1 and no prior record, the hasher
encodes the absent prev_hash as the empty string and produces the SHA-256
digest, as lowercase hex, of the canonical JSON serialization with keys
sorted lexicographically and no insignificant whitespace; that digest is the
concrete value below (sha256sum of the same canonical string). -/
theorem c6_first_record_concrete_hash :
    calculate_progress_hash "P" 1000 "2024-01-01" "U1" none =
      sha256hex (utf8 "\x7b\"prev_hash\":\"\",\"project_id\":\"P\",\"report_date\":\"2024-01-01\",\"reported_by\":\"U1\",\"reported_percent\":10.0\x7d") ∧
    calculate_progress_hash "P" 1000 "2024-01-01" "U1" none =
      "914c0742d9d9e0dd185ce0119a84b4ffd6f68263362ebbd6a0638e3e8570a30a" := by
  constructor
  · rfl
  · decide

/-- Claim C7: both canonical hashers are pure deterministic functions, and
hashing with an absent (None) prev_hash yields the same digest as hashing
with the explicit empty-string prev_hash. -/
theorem c7_hasher_pure_none_empty_agree :
    (∀ pid pct d u p, calculate_progress_hash pid pct d u p =
        calculate_progress_hash pid pct d u p) ∧
    (∀ pid pct d u, calculate_progress_hash pid pct d u none =
        calculate_progress_hash pid pct d u (some "")) ∧
    (∀ a act et eid pl c p, calculate_audit_hash a act et eid pl c p =
        calculate_audit_hash a act et eid pl c p) ∧
    (∀ a act et eid pl c, calculate_audit_hash a act et eid pl c none =
        calculate_audit_hash a act et eid pl c (some "")) :=
  ⟨fun _ _ _ _ _ => rfl, fun _ _ _ _ => rfl, fun _ _ _ _ _ _ _ => rfl,
   fun _ _ _ _ _ _ => rfl⟩

/-- Claim C9, counterexample: the audit verifier fetches at most limit
(default 1000) rows, so on a 1001-record chain the reported number of
records checked is not the chain length — the claimed "no upper bound on
the number of records examined" is false for verify_chain_integrity. -/
theorem c9_audit_verifier_is_bounded :
    (verify_chain_integrity (List.replicate 1001 cxAuditLog) 1000).logs_checked ≠
      (List.replicate 1001 cxAuditLog).length := by
  simp [verify_chain_integrity]

/-- Claim C9, amended: the progress verifier reports a count equal to the
full scope size, with no bound; the audit verifier examines only the first
min(limit, N) records of the chain and reports that count. -/
theorem c9_verifier_checked_counts :
    (∀ pid db, (verify_chain pid db).total_logs = (scopeLogs pid db).length) ∧
    (∀ logs limit, (verify_chain_integrity logs limit).logs_checked =
        min limit logs.length) := by
  constructor
  · intro pid db
    unfold verify_chain
    by_cases h : (scopeLogs pid db).isEmpty
    · simp only [h, if_true]
      have : scopeLogs pid db = [] := by simpa using h
      simp [this]
    · simp [h]
  · intro logs limit
    simp [verify_chain_integrity]

/-- Claim C4: the source holds no lock (and opens no serializable
transaction) across the latest-record read and the insert, so the
interleaving in which both requests read before either commits is
permitted, and it yields two records in the scope with the same prev_hash
h0 — the chain forks instead of forming a single unbroken sequence. -/
theorem c4_unsynchronized_append_forks_chain :
    raceFinal.progress_logs.map (fun l => (l.progress_id, l.prev_hash)) =
      [("pr0", none), ("prA", some "h0"), ("prB", some "h0")] ∧
    (scopeLogs "P" raceFinal).countP (fun l => l.prev_hash == some "h0") = 2 := by
  constructor
  · rfl
  · rfl

/-- Claim C1, counterexample: a valid 1001-record audit chain — each record
hashed by the canonical hasher over its stored fields, linked to the stored
record_hash before it, the very state 1001 successful Appends leave behind
— is reported by the audit verifier with only 1000 records checked, not N:
the query fetches at most its limit, so the claimed "N records checked"
fails beyond it. -/
theorem c1_valid_audit_chain_beyond_limit :
    auditChainedFrom none (auditChainAux 1001 none) ∧
    (verify_chain_integrity (auditChainAux 1001 none) 1000).logs_checked ≠
      (auditChainAux 1001 none).length := by
  refine ⟨auditChainAux_chained 1001 none, ?_⟩
  have h1 : (auditChainAux 1001 none).length = 1001 := auditChainAux_length 1001 none
  have h2 : (verify_chain_integrity (auditChainAux 1001 none) 1000).logs_checked =
      min 1000 1001 := by
    simp [verify_chain_integrity, List.length_take, h1]
  rw [h1, h2]
  omega

/-- Claim C1, amended: for every store whose scope is a valid chain of N
appended records (each record hashed by the canonical hasher over its
stored fields and linked to the stored hash before it), VerifyChain reports
the chain valid with an empty findings list; the progress verifier checks
and reports all N records, while the audit verifier checks and reports only
the first min(limit, N) records of the chain (fetch limit, default 1000),
so its reported count equals N only when N is within the limit. -/
theorem c1_valid_chains_verify_clean :
    (∀ pid db, chainedFrom none (scopeLogs pid db) →
        verify_chain pid db =
          { project_id := pid, total_logs := (scopeLogs pid db).length,
            chain_valid := true, broken_links := [] }) ∧
    (∀ logs limit, auditChainedFrom none logs →
        verify_chain_integrity logs limit =
          { is_valid := true, logs_checked := min limit logs.length,
            broken_links := [] }) := by
  constructor
  · intro pid db h
    unfold verify_chain
    by_cases he : (scopeLogs pid db).isEmpty
    · have h0 : scopeLogs pid db = [] := by simpa using he
      simp [he, h0]
    · have h0 : verifyAux none (scopeLogs pid db) = [] := chained_no_findings _ _ h
      simp [he, verify_progress_chain, h0]
  · intro logs limit h
    have ht : auditChainedFrom none (logs.take limit) := auditChainedFrom_take logs limit none h
    have h0 : auditVerifyAux none (logs.take limit) = [] := audit_chained_no_findings _ _ ht
    simp [verify_chain_integrity, h0, List.length_take]

/-- Claim C1 witness for the amended statement: the spec's two-report chain
of project P verifies clean with 2 records checked, and a one-record audit
chain verifies clean with min(1000, 1) = 1 record checked. -/
theorem c1_valid_chains_verify_clean_witness :
    verify_chain "P" wDB =
      { project_id := "P", total_logs := 2, chain_valid := true, broken_links := [] } ∧
    verify_chain_integrity [wAudit1] 1000 =
      { is_valid := true, logs_checked := 1, broken_links := [] } :=
  ⟨c1_valid_chains_verify_clean.1 "P" wDB ⟨rfl, rfl, rfl, rfl, trivial⟩,
   c1_valid_chains_verify_clean.2 [wAudit1] 1000 ⟨rfl, rfl, trivial⟩⟩

/-- Claim C2, counterexample: in the valid two-record chain of project P,
mutating the first record's payload out-of-band (stored record_hash and
prev_hash untouched) yields exactly one HashMismatch finding at the mutated
record and zero LinkMismatch findings — in particular no LinkMismatch at
the next record, contrary to the claim.  The verifier advances from the
stored record_hash, so the successor's link is still consistent. -/
theorem c2_mutation_yields_no_link_mismatch :
    (verify_progress_chain [wLog1mut, wLog2]).2 =
      [ProgressFinding.hashMismatch "pr1"
        (calculate_progress_hash "P" 2000 "2024-01-01" "U1" none)
        (calculate_progress_hash "P" 1000 "2024-01-01" "U1" none) "2024-01-01"] ∧
    (verify_progress_chain [wLog1mut, wLog2]).2.countP
      (fun f => f.isLinkFinding) = 0 := by
  constructor
  · decide
  · decide

/-- Claim C2, amended: mutating exactly one record's payload out-of-band in
a valid chain (stored hash columns untouched, the new payload hashing
differently) makes VerifyChain report exactly one finding: a HashMismatch
at the mutated record, and no finding — in particular no LinkMismatch — at
any earlier or later record. -/
theorem c2_single_mutation_single_hash_finding (pid : String) (db : DB)
    (pre post : List ProgressLog) (r : ProgressLog)
    (hscope : scopeLogs pid db = pre ++ r :: post)
    (hpre : chainedFrom none pre)
    (hlink : r.prev_hash = chainEnd none pre)
    (hmut : calculate_progress_hash r.project_id r.reported_percent r.report_date
      r.reported_by (chainEnd none pre) ≠ r.record_hash)
    (hpost : chainedFrom (some r.record_hash) post) :
    verify_chain pid db =
      { project_id := pid, total_logs := pre.length + 1 + post.length,
        chain_valid := false,
        broken_links := [ProgressFinding.hashMismatch r.progress_id
          (calculate_progress_hash r.project_id r.reported_percent r.report_date
            r.reported_by (chainEnd none pre)) r.record_hash r.report_date] } := by
  have h1 : verifyAux none (pre ++ r :: post) = verifyAux (chainEnd none pre) (r :: post) :=
    verifyAux_append _ _ _ hpre
  have h3 : verifyAux (some r.record_hash) post = [] := chained_no_findings _ _ hpost
  have h2 : verifyAux (chainEnd none pre) (r :: post) =
      [ProgressFinding.hashMismatch r.progress_id
        (calculate_progress_hash r.project_id r.reported_percent r.report_date
          r.reported_by (chainEnd none pre)) r.record_hash r.report_date] := by
    cases hce : chainEnd none pre with
    | none =>
        rw [hce] at hmut
        simp [verifyAux, if_pos hmut, h3]
    | some p =>
        rw [hce] at hmut hlink
        simp [verifyAux, if_pos hmut, hlink, h3]
  unfold verify_chain
  rw [hscope]
  have hlen : (pre ++ r :: post).length = pre.length + 1 + post.length := by
    simp only [List.length_append, List.length_cons]
    omega
  simp only [verify_progress_chain, h1, h2]
  simp [hlen]

/-- Claim C2 witness for the amended statement: the concrete mutated
two-record chain, with the mutated first record as the single finding. -/
theorem c2_single_mutation_single_hash_finding_witness :
    verify_chain "P" wDBmut =
      { project_id := "P", total_logs := 2, chain_valid := false,
        broken_links := [ProgressFinding.hashMismatch "pr1"
          (calculate_progress_hash "P" 2000 "2024-01-01" "U1" none)
          wLog1.record_hash "2024-01-01"] } :=
  c2_single_mutation_single_hash_finding "P" wDBmut [] [wLog2] wLog1mut rfl trivial rfl
    (by decide) ⟨rfl, rfl, trivial⟩

/-- Claim C3: a successful Append writes exactly one new record to its
chain store and modifies no existing record — the progress store after
log_progress equals the prior store plus the single returned record (the
handler also appends the corresponding single audit-trail row to the audit
store), and the audit store after log_action equals the prior store plus
the single returned record. -/
theorem c3_append_writes_exactly_one :
    (∀ db pid inp uid prid now aid anow db2 rec,
        log_progress db pid inp uid prid now aid anow = .ok (db2, rec) →
        db2.progress_logs = db.progress_logs ++ [rec] ∧
        ∃ a, db2.audit_logs = db.audit_logs ++ [a]) ∧
    (∀ logs actor act etype eid payload ip ua aid now ins,
        (log_action logs actor act etype eid payload ip ua aid now ins).1 =
          logs ++ [(log_action logs actor act etype eid payload ip ua aid now ins).2]) := by
  constructor
  · intro db pid inp uid prid now aid anow db2 rec h
    unfold log_progress at h
    cases hr : log_progress_read db pid inp uid prid now aid anow with
    | error e => rw [hr] at h; cases h
    | ok pending =>
        rw [hr] at h
        simp only [Except.ok.injEq, Prod.mk.injEq] at h
        obtain ⟨h1, h2⟩ := h
        subst h1
        subst h2
        exact ⟨rfl, pending.audit_entry, rfl⟩
  · intro logs actor act etype eid payload ip ua aid now ins
    rfl

/-- Claim C3 witness: appending the first record of project P to the empty
store yields exactly that record in the progress store and one audit row. -/
theorem c3_append_writes_exactly_one_witness :
    (DB.mk [wLog1] [wAuditEntry]).progress_logs = emptyDB.progress_logs ++ [wLog1] ∧
    ∃ a, (DB.mk [wLog1] [wAuditEntry]).audit_logs = emptyDB.audit_logs ++ [a] :=
  c3_append_writes_exactly_one.1 emptyDB "P"
    { reported_percent := 1000, report_date := "2024-01-01", remarks := none }
    "U1" "pr1" "2024-01-01T10:00:00" "a1" "t2" (DB.mk [wLog1] [wAuditEntry]) wLog1 rfl

/-- Claim C5: when the scope already holds a progress record for the given
report_date, a second Append for the same scope and date fails with the
duplicate-record error, and the store is unchanged after the failed
attempt. -/
theorem c5_duplicate_date_rejected (db : DB) (pid : String) (inp : ProgressLogCreate)
    (uid prid now aid anow : String)
    (h : ∃ l ∈ db.progress_logs, l.project_id = pid ∧ l.report_date = inp.report_date) :
    log_progress db pid inp uid prid now aid anow =
      .error (.duplicateRecord inp.report_date) ∧
    log_progress_state db pid inp uid prid now aid anow = db := by
  have hany : db.progress_logs.any
      (fun l => l.project_id == pid && l.report_date == inp.report_date) = true := by
    rw [List.any_eq_true]
    obtain ⟨l, hl, h1, h2⟩ := h
    exact ⟨l, hl, by simp [h1, h2]⟩
  refine ⟨?_, ?_⟩ <;>
    simp [log_progress, log_progress_state, log_progress_read, hany]

/-- Claim C5 witness: project P already reported on 2024-01-01; a second
report for that date is rejected and the store is untouched. -/
theorem c5_duplicate_date_rejected_witness :
    log_progress wDB "P"
        { reported_percent := 5000, report_date := "2024-01-01", remarks := none }
        "U1" "prX" "tX" "aX" "tX2" = .error (.duplicateRecord "2024-01-01") ∧
    log_progress_state wDB "P"
        { reported_percent := 5000, report_date := "2024-01-01", remarks := none }
        "U1" "prX" "tX" "aX" "tX2" = wDB :=
  c5_duplicate_date_rejected wDB "P" _ "U1" "prX" "tX" "aX" "tX2"
    ⟨wLog1, by simp [wDB], rfl, rfl⟩

/-- Claim C8, counterexample: the first record of a scope is stored and
returned with prev_hash NULL (None at the boundary, where the response
field is Optional), not the empty string the claim requires — so for a
single-record chain the exposed prev_hash is null rather than the
empty-string sentinel. -/
theorem c8_first_record_prev_hash_is_null :
    (log_progress emptyDB "P"
        { reported_percent := 1000, report_date := "2024-01-01", remarks := none }
        "U1" "pr1" "2024-01-01T10:00:00" "a1" "t2").toOption.map
      (fun p => p.2.prev_hash) = some none ∧
    some (none : Option String) ≠ some (some "") :=
  ⟨rfl, by simp⟩

/-- Claim C8, amended: a record's prev_hash at the boundary is either NULL
(the sentinel the code uses for the first record of a scope, exposed as an
optional field) or the 64-character lowercase hex record_hash of the
scope's previous record; every record_hash the hasher produces is
64-character lowercase hex; and a single-record chain — the result of
appending to an empty scope — has prev_hash NULL and verifies valid. -/
theorem c8_prev_hash_null_or_prior_hash :
    (∀ db pid inp uid prid now aid anow db2 rec,
        log_progress db pid inp uid prid now aid anow = .ok (db2, rec) →
        ((scopeLogs pid db = [] ∧ rec.prev_hash = none) ∨
         (∃ last, (scopeLogs pid db).getLast? = some last ∧
            rec.prev_hash = some last.record_hash))) ∧
    (∀ pid pct d u p, isHex64 (calculate_progress_hash pid pct d u p) = true) ∧
    (∀ db pid inp uid prid now aid anow db2 rec,
        scopeLogs pid db = [] →
        log_progress db pid inp uid prid now aid anow = .ok (db2, rec) →
        verify_chain pid db2 =
          { project_id := pid, total_logs := 1, chain_valid := true,
            broken_links := [] }) := by
  refine ⟨?_, ?_, ?_⟩
  · intro db pid inp uid prid now aid anow db2 rec h
    unfold log_progress at h
    cases hr : log_progress_read db pid inp uid prid now aid anow with
    | error e => rw [hr] at h; cases h
    | ok pending =>
        rw [hr] at h
        simp only [Except.ok.injEq, Prod.mk.injEq] at h
        obtain ⟨h1, h2⟩ := h
        unfold log_progress_read at hr
        by_cases hdup : db.progress_logs.any
            (fun l => l.project_id == pid && l.report_date == inp.report_date) = true
        · rw [if_pos hdup] at hr; cases hr
        · rw [if_neg hdup] at hr
          simp only [Except.ok.injEq] at hr
          subst hr
          subst h2
          cases hlast : (scopeLogs pid db).getLast? with
          | none =>
              left
              exact ⟨List.getLast?_eq_none_iff.mp hlast, by simp [hlast]⟩
          | some last =>
              right
              exact ⟨last, rfl, by simp [hlast]⟩
  · intro pid pct d u p
    exact isHex64_sha256hex _
  · intro db pid inp uid prid now aid anow db2 rec hempty h
    have hnoneP : ∀ l ∈ db.progress_logs, (l.project_id == pid) = false := by
      intro l hl
      rcases Bool.eq_false_or_eq_true (l.project_id == pid) with hb | hb
      · have hmem : l ∈ scopeLogs pid db := List.mem_filter.mpr ⟨hl, hb⟩
        rw [hempty] at hmem
        exact absurd hmem (List.not_mem_nil l)
      · exact hb
    have hany : db.progress_logs.any
        (fun l => l.project_id == pid && l.report_date == inp.report_date) = false := by
      rw [List.any_eq_false]
      intro l hl
      simp [hnoneP l hl]
    unfold log_progress at h
    cases hr : log_progress_read db pid inp uid prid now aid anow with
    | error e => rw [hr] at h; cases h
    | ok pending =>
        rw [hr] at h
        simp only [Except.ok.injEq, Prod.mk.injEq] at h
        obtain ⟨h1, h2⟩ := h
        unfold log_progress_read at hr
        rw [if_neg (by simp [hany])] at hr
        simp only [Except.ok.injEq] at hr
        subst hr
        subst h2
        subst h1
        have hprev : (scopeLogs pid db).getLast?.map (fun l => l.record_hash) = none := by
          rw [hempty]
          rfl
        rw [hprev]
        simp [verify_chain, scopeLogs, log_progress_commit, List.filter_append,
          show db.progress_logs.filter (fun l => l.project_id == pid) = [] from hempty,
          verify_progress_chain, verifyAux]

/-- Claim C8 witness for the amended statement: the store produced by the
first append of project P verifies as a valid single-record chain, and the
hasher output is 64 lowercase hex characters. -/
theorem c8_prev_hash_null_or_prior_hash_witness :
    verify_chain "P" (DB.mk [wLog1] [wAuditEntry]) =
      { project_id := "P", total_logs := 1, chain_valid := true, broken_links := [] } ∧
    isHex64 (calculate_progress_hash "P" 1000 "2024-01-01" "U1" none) = true :=
  ⟨c8_prev_hash_null_or_prior_hash.2.2 emptyDB "P"
      { reported_percent := 1000, report_date := "2024-01-01", remarks := none }
      "U1" "pr1" "2024-01-01T10:00:00" "a1" "t2" (DB.mk [wLog1] [wAuditEntry]) wLog1
      rfl rfl,
   c8_prev_hash_null_or_prior_hash.2.1 "P" 1000 "2024-01-01" "U1" none⟩

/-- Claim C10: whatever non-empty prev_hash the first record of a chain
carries, the verifier emits no LinkMismatch finding at that record — the
link check is skipped while the running value is still the initial None, so
a forged first-record prev_hash surfaces only through the record_hash
recomputation. -/
theorem c10_first_record_link_never_flagged (r : ProgressLog) (rest : List ProgressLog)
    (hforged : r.prev_hash ≠ none)
    (hids : ∀ l ∈ rest, l.progress_id ≠ r.progress_id) :
    (verify_progress_chain (r :: rest)).2.countP
      (fun f => f.isLinkFinding && f.progressId == r.progress_id) = 0 := by
  rw [List.countP_eq_zero]
  intro f hf
  simp only [verify_progress_chain] at hf
  simp only [verifyAux, List.nil_append, List.append_nil, List.mem_append] at hf
  rcases hf with hf | hf
  · split at hf
    · simp at hf
      subst hf
      simp [ProgressFinding.isLinkFinding]
    · simp at hf
  · have hmem := verifyAux_progressId_mem rest (some r.record_hash) f hf
    rw [List.mem_map] at hmem
    obtain ⟨l, hl, hpid⟩ := hmem
    have hne : f.progressId ≠ r.progress_id := hpid ▸ hids l hl
    simp [hne]

/-- Claim C10 witness: a single-record chain whose record carries the forged
prev_hash deadbeef receives no LinkMismatch finding. -/
theorem c10_first_record_link_never_flagged_witness :
    (verify_progress_chain [wForged]).2.countP
      (fun f => f.isLinkFinding && f.progressId == wForged.progress_id) = 0 ∧
    wForged.prev_hash ≠ none :=
  ⟨c10_first_record_link_never_flagged wForged [] (by simp [wForged]) (by simp),
   by simp [wForged]⟩

end Ebarmm
